import Mathlib

/-!
Verification of the TalentLens core services: a shallow embedding of the
resume parsing, skill extraction, embedding, matching and recommendation
services, together with theorems settling the specification claims.

Conventions of the embedding:
* Python strings are `List Char`; byte strings are `List Nat`.
* Python numbers are `ℚ` (floats) and `ℕ`/`ℤ` (ints); `round(x, 2)` is
  modelled exactly as round-half-to-even on `100 * x`.
* External numeric library calls (numpy's `randn`, the raw cosine value)
  are abstracted as function parameters; everything the repository itself
  computes is a concrete executable definition.
* A Python function that may raise is modelled as returning `Except`.
-/

namespace TalentLens

/-- Lowercase one character, as Python's str.lower does on ASCII. -/
def lowChar (c : Char) : Char := c.toLower

/-- Lowercase a string (list of characters). -/
def lowStr (s : List Char) : List Char := s.map lowChar

/-- Convert a Lean string literal to the list-of-characters representation. -/
def lc (s : String) : List Char := s.data

/-- Python round-half-to-even of a rational to an integer, as used by
the builtin round function. -/
def pyRound (y : ℚ) : ℤ :=
  if y - ⌊y⌋ < 1/2 then ⌊y⌋
  else if 1/2 < y - ⌊y⌋ then ⌊y⌋ + 1
  else if 2 ∣ ⌊y⌋ then ⌊y⌋ else ⌊y⌋ + 1

/-- Python round(x, 2): round to two decimal places, ties to even. -/
def round2 (x : ℚ) : ℚ := (pyRound (100 * x) : ℚ) / 100

theorem pyRound_cases (y : ℚ) : pyRound y = ⌊y⌋ ∨ pyRound y = ⌊y⌋ + 1 := by
  unfold pyRound
  split_ifs <;> simp

theorem pyRound_nonneg {y : ℚ} (h : 0 ≤ y) : 0 ≤ pyRound y := by
  have hf : (0:ℤ) ≤ ⌊y⌋ := Int.le_floor.mpr (by exact_mod_cast h)
  rcases pyRound_cases y with h1 | h1 <;> omega

theorem pyRound_le_of_le {y : ℚ} {B : ℤ} (h : y ≤ B) : pyRound y ≤ B := by
  have hfB : ⌊y⌋ ≤ B := by
    have := Int.floor_le_floor h
    rwa [Int.floor_intCast] at this
  rcases lt_or_eq_of_le hfB with hlt | heq
  · rcases pyRound_cases y with h1 | h1 <;> omega
  · -- the floor equals the bound, so the fractional part is ≤ 0 < 1/2
    have hy : y - (⌊y⌋ : ℚ) ≤ 0 := by
      have : (B : ℚ) = (⌊y⌋ : ℚ) := by exact_mod_cast heq.symm
      linarith [this ▸ h]
    unfold pyRound
    rw [if_pos (by linarith)]
    omega

theorem pyRound_ge (y : ℚ) : ⌊y⌋ ≤ pyRound y := by
  rcases pyRound_cases y with h | h <;> omega

theorem pyRound_mono {y₁ y₂ : ℚ} (h : y₁ ≤ y₂) : pyRound y₁ ≤ pyRound y₂ := by
  rcases lt_or_eq_of_le (Int.floor_le_floor h) with hlt | heq
  · have h1 : pyRound y₁ ≤ ⌊y₁⌋ + 1 := by rcases pyRound_cases y₁ with h2 | h2 <;> omega
    have h3 := pyRound_ge y₂
    omega
  · unfold pyRound
    rw [← heq]
    split_ifs <;> first | omega | (exfalso; linarith)

theorem round2_nonneg {x : ℚ} (h : 0 ≤ x) : 0 ≤ round2 x := by
  unfold round2
  have h0 : (0:ℚ) ≤ 100 * x := by linarith
  have := pyRound_nonneg h0
  positivity

theorem round2_le_100 {x : ℚ} (h : x ≤ 100) : round2 x ≤ 100 := by
  unfold round2
  have h1 : pyRound (100 * x) ≤ (10000 : ℤ) :=
    pyRound_le_of_le (by push_cast; linarith)
  rw [div_le_iff₀ (by norm_num)]
  exact_mod_cast h1

theorem round2_mono {x₁ x₂ : ℚ} (h : x₁ ≤ x₂) : round2 x₁ ≤ round2 x₂ := by
  unfold round2
  have h0 : 100 * x₁ ≤ 100 * x₂ := by linarith
  have h1 := pyRound_mono h0
  have h2 : (pyRound (100 * x₁) : ℚ) ≤ (pyRound (100 * x₂) : ℚ) := by exact_mod_cast h1
  linarith

/-! SHA-256, executable, over byte lists.  Used by the embedding service's
deterministic fallback, which seeds a pseudo-random generator from the
first 8 hex characters of the digest of the input text. -/

/-- Reduce a natural number modulo 2^32. -/
def w32 (n : ℕ) : ℕ := n % 4294967296

/-- Rotate a 32-bit word right by k bits. -/
def rotr (k n : ℕ) : ℕ := n / 2 ^ k + n % 2 ^ k * 2 ^ (32 - k)

/-- SHA-256 round constants, written in decimal. -/
def sha256K : List ℕ :=
  [1116352408, 1899447441, 3049323471, 3921009573, 961987163,
   1508970993, 2453635748, 2870763221, 3624381080, 310598401,
   607225278, 1426881987, 1925078388, 2162078206, 2614888103,
   3248222580, 3835390401, 4022224774, 264347078, 604807628,
   770255983, 1249150122, 1555081692, 1996064986, 2554220882,
   2821834349, 2952996808, 3210313671, 3336571891, 3584528711,
   113926993, 338241895, 666307205, 773529912, 1294757372,
   1396182291, 1695183700, 1986661051, 2177026350, 2456956037,
   2730485921, 2820302411, 3259730800, 3345764771, 3516065817,
   3600352804, 4094571909, 275423344, 430227734, 506948616,
   659060556, 883997877, 958139571, 1322822218, 1537002063,
   1747873779, 1955562222, 2024104815, 2227730452, 2361852424,
   2428436474, 2756734187, 3204031479, 3329325298]

/-- SHA-256 initial hash value, written in decimal. -/
def sha256H0 : List ℕ :=
  [1779033703, 3144134277, 1013904242, 2773480762,
   1359893119, 2600822924, 528734635, 1541459225]

/-- Big-endian bytes of a value, fixed width. -/
def beBytes : ℕ → ℕ → List ℕ
  | 0, _ => []
  | k + 1, v => beBytes k (v / 256) ++ [v % 256]

/-- Big-endian value of a byte list. -/
def beVal (l : List ℕ) : ℕ := l.foldl (fun a b => a * 256 + b) 0

/-- SHA-256 message padding: append 0x80, zeros, and the 64-bit big-endian
bit length, reaching a multiple of 64 bytes. -/
def sha256Pad (msg : List ℕ) : List ℕ :=
  msg ++ [0x80] ++ List.replicate ((119 - msg.length % 64) % 64) 0
      ++ beBytes 8 (8 * msg.length)

/-- The 16 initial 32-bit schedule words of one 64-byte chunk. -/
def chunkWords (chunk : List ℕ) : List ℕ :=
  (List.range 16).map fun i => beVal ((chunk.drop (4 * i)).take 4)

/-- Small sigma-0 in the message schedule. -/
def ssig0 (w : ℕ) : ℕ := rotr 7 w ^^^ rotr 18 w ^^^ w / 8

/-- Small sigma-1 in the message schedule. -/
def ssig1 (w : ℕ) : ℕ := rotr 17 w ^^^ rotr 19 w ^^^ w / 1024

/-- Extend the schedule;  the accumulator keeps the schedule in reverse
order, newest word first. -/
def schedExtend : ℕ → List ℕ → List ℕ
  | 0, wrev => wrev
  | k + 1, wrev =>
      schedExtend k
        (w32 (wrev.getD 15 0 + ssig0 (wrev.getD 14 0) + wrev.getD 6 0
              + ssig1 (wrev.getD 1 0)) :: wrev)

/-- The 64 schedule words of a chunk. -/
def schedule (chunk : List ℕ) : List ℕ :=
  (schedExtend 48 (chunkWords chunk).reverse).reverse

/-- One SHA-256 compression round; the state is the 8 working words. -/
def sha256Round (st : List ℕ) (kw : ℕ × ℕ) : List ℕ :=
  let a := st.getD 0 0
  let b := st.getD 1 0
  let c := st.getD 2 0
  let d := st.getD 3 0
  let e := st.getD 4 0
  let f := st.getD 5 0
  let g := st.getD 6 0
  let h := st.getD 7 0
  let s1 := rotr 6 e ^^^ rotr 11 e ^^^ rotr 25 e
  let ch := (e &&& f) ^^^ ((e ^^^ 0xffffffff) &&& g)
  let t1 := w32 (h + s1 + ch + kw.1 + kw.2)
  let s0 := rotr 2 a ^^^ rotr 13 a ^^^ rotr 22 a
  let maj := (a &&& b) ^^^ (a &&& c) ^^^ (b &&& c)
  let t2 := w32 (s0 + maj)
  [w32 (t1 + t2), a, b, c, w32 (d + t1), e, f, g]

/-- Compress one 64-byte chunk into the running hash. -/
def sha256Compress (hsh : List ℕ) (chunk : List ℕ) : List ℕ :=
  let st := (sha256K.zip (schedule chunk)).foldl sha256Round hsh
  (hsh.zip st).map fun p => w32 (p.1 + p.2)

/-- SHA-256 digest (32 bytes) of a byte-list message. -/
def sha256 (msg : List ℕ) : List ℕ :=
  let padded := sha256Pad msg
  let n := padded.length / 64
  let chunks := (List.range n).map fun i => (padded.drop (64 * i)).take 64
  (chunks.foldl sha256Compress sha256H0).flatMap (beBytes 4)

/-- Lowercase hex character of a value below 16. -/
def hexChar (n : ℕ) : Char :=
  if n < 10 then Char.ofNat (48 + n) else Char.ofNat (87 + n)

/-- Lowercase hex digest string of a byte list, as Python hexdigest. -/
def hexdigest (bytes : List ℕ) : List Char :=
  bytes.flatMap fun b => [hexChar (b / 16), hexChar (b % 16)]

/-- Numeric value of a hex-digit character. -/
def hexCharVal (c : Char) : ℕ :=
  if c.toNat ≤ 57 then c.toNat - 48 else c.toNat - 87

/-- Value of a hex string, as Python int(s, 16) on lowercase hex. -/
def hexToNat (s : List Char) : ℕ := s.foldl (fun a c => a * 16 + hexCharVal c) 0

set_option maxRecDepth 100000 in
theorem sha256_empty_kat :
    hexdigest (sha256 []) =
      lc "e3b0c44298fc1c149afbf4c8996fb92427ae41e4649b934ca495991b7852b855" := by
  decide

set_option maxRecDepth 100000 in
theorem sha256_abc_kat :
    hexdigest (sha256 [97, 98, 99]) =
      lc "ba7816bf8f01cfea414140de5dae2223b00361a396177a9cb410ff61f20015ad" := by
  decide

/-! Data model: the resume and job records the services consume.  Nullable
columns are Option; texts are lists of characters. -/

/-- One education entry of a parsed resume. -/
structure EduEntry where
  degree : List Char
  context : List Char
  graduation_year : Option ℕ
deriving DecidableEq

/-- One work-history entry of a parsed resume. -/
structure WorkEntry where
  start_date : List Char
  end_date : List Char
  context : List Char
deriving DecidableEq

/-- A resume record, as the matching service reads it. -/
structure Resume where
  raw_text : Option (List Char)
  skills : List (List Char)
  experience_years : Option ℕ
  education : List EduEntry
deriving DecidableEq

/-- A job record, as the matching and recommendation services read it. -/
structure Job where
  id : ℕ
  title : List Char
  company : List Char
  description : List Char
  requirements : Option (List Char)
  skills_required : List (List Char)
  experience_required : Option ℕ
  education_required : Option (List Char)
  location : Option (List Char)
  job_type : Option (List Char)
  remote_option : Option (List Char)
  salary_min : Option ℚ
  salary_max : Option ℚ
deriving DecidableEq

/-! Embedding service. -/

/-- Default embedding dimension of the service (all-MiniLM-L6-v2). -/
def embedding_dim : ℕ := 384

/-- Seed of the fallback embedding: the integer value of the first 8 hex
characters of the SHA-256 hexdigest of the text, modulo 2^31. -/
def fallbackSeed (text : List ℕ) : ℕ :=
  hexToNat ((hexdigest (sha256 text)).take 8) % 2 ^ 31

/-- The deterministic fallback embedding used when no model backend is
available.  numpy's RandomState(seed).randn(dim) is abstracted as the
function randn, a deterministic function of seed and dimension. -/
def fallback_embedding (randn : ℕ → ℕ → List ℚ) (dim : ℕ) (text : List ℕ) : List ℚ :=
  randn (fallbackSeed text) dim

/-- Sum of squares of a vector; zero exactly when the numpy norm is zero. -/
def normSq (v : List ℚ) : ℚ := (v.map fun x => x * x).sum

/-- Cosine similarity of two embeddings, rescaled from [-1,1] to [0,1] and
clamped; 0.0 if either vector has zero norm.  The raw cosine value
dot/(norm1*norm2) computed in floating point is abstracted as cosRaw. -/
def compute_similarity (cosRaw : List ℚ → List ℚ → ℚ) (e1 e2 : List ℚ) : ℚ :=
  if normSq e1 = 0 ∨ normSq e2 = 0 then 0
  else max 0 (min 1 ((cosRaw e1 e2 + 1) / 2))

/-! Matching service. -/

/-- Lowercased skill set built from a list of strings, as Python
set(s.lower() for s in l); represented as a duplicate-free list. -/
def lowerSetL (l : List (List Char)) : List (List Char) := (l.map lowStr).dedup

/-- The same lowercased skill set as a Finset, for set-level statements. -/
def lowerSet (l : List (List Char)) : Finset (List Char) := (l.map lowStr).toFinset

/-- Result of the skill-score computation. -/
structure SkillResult where
  score : ℚ
  overlap : List (List Char)
  gaps : List (List Char)

/-- Skill match score: share of required skills present in the resume,
case-insensitively; 100 with the resume's own skills as overlap when the
job requires none. -/
def calculate_skill_score (resume : Resume) (job : Job) : SkillResult :=
  let resume_skills := lowerSetL resume.skills
  let job_skills := lowerSetL job.skills_required
  if job_skills = [] then ⟨100, resume_skills, []⟩
  else
    let overlap := resume_skills.filter fun s => decide (s ∈ job_skills)
    let gaps := job_skills.filter fun s => decide (s ∉ resume_skills)
    ⟨(overlap.length : ℚ) / (job_skills.length : ℚ) * 100, overlap, gaps⟩

/-- The job-side text embedded for the semantic score: title, description
and requirements joined by single spaces. -/
def jobText (job : Job) : List Char :=
  job.title ++ [' '] ++ job.description ++ [' '] ++ job.requirements.getD []

/-- Semantic similarity score.  Embedding calls may fail (Except); any
failure inside the guarded block yields the neutral 50.0, as does an empty
source text. -/
def calculate_semantic_score (embedE : List Char → Except (List Char) (List ℚ))
    (cosRaw : List ℚ → List ℚ → ℚ) (resume : Resume) (job : Job) : ℚ :=
  let resume_text := resume.raw_text.getD []
  let job_text := jobText job
  if resume_text = [] ∨ job_text = [] then 50
  else
    match (do
      let a ← embedE resume_text
      let b ← embedE job_text
      pure (compute_similarity cosRaw a b) : Except (List Char) ℚ) with
    | .ok s => s * 100
    | .error _ => 50

/-- Experience match score. -/
def calculate_experience_score (resume : Resume) (job : Job) : ℚ :=
  let resume_exp := resume.experience_years.getD 0
  let required_exp := job.experience_required.getD 0
  if required_exp = 0 then 100
  else if required_exp ≤ resume_exp then 100
  else min 100 ((resume_exp : ℚ) / (required_exp : ℚ) * 100)

/-- Is the first list a prefix of the second, by character equality. -/
def startsList : List Char → List Char → Bool
  | [], _ => true
  | _ :: _, [] => false
  | a :: n, b :: h => a == b && startsList n h

/-- Does the needle occur as a contiguous substring of the haystack, as
the Python in operator on strings. -/
def containsList (needle : List Char) : List Char → Bool
  | [] => needle.isEmpty
  | b :: h => startsList needle (b :: h) || containsList needle h

/-- The education level table, in its Python insertion order. -/
def edu_levels : List (List Char × ℕ) :=
  [(lc "high school", 1), (lc "associate", 2), (lc "bachelor", 3),
   (lc "master", 4), (lc "phd", 5), (lc "doctorate", 5)]

/-- Level of the first table keyword occurring in the requirement text
(the Python loop breaks on the first hit); 0 if none occurs. -/
def firstLevel : List (List Char × ℕ) → List Char → ℕ
  | [], _ => 0
  | kl :: rest, txt => if containsList kl.1 txt then kl.2 else firstLevel rest txt

/-- Highest table level occurring in any of the candidate's lowered degree
strings (the Python loop keeps a running maximum and never breaks). -/
def candidateLevel (edu : List EduEntry) : ℕ :=
  edu.foldl
    (fun acc e =>
      edu_levels.foldl
        (fun acc2 kl =>
          if containsList kl.1 (lowStr e.degree) then max acc2 kl.2 else acc2)
        acc)
    0

/-- Education match score. -/
def calculate_education_score (resume : Resume) (job : Job) : ℚ :=
  let required_edu := lowStr (job.education_required.getD [])
  if required_edu = [] then 100
  else
    let required_level := firstLevel edu_levels required_edu
    if required_level = 0 then 100
    else
      let candidate_level := candidateLevel resume.education
      if required_level ≤ candidate_level then 100
      else (candidate_level : ℚ) / (required_level : ℚ) * 100

/-- Join strings with a separator, as Python str.join. -/
def joinWith (sep : List Char) : List (List Char) → List Char
  | [] => []
  | [x] => x
  | x :: y :: rest => x ++ sep ++ joinWith sep (y :: rest)

/-- Decimal digits of a natural number. -/
def natDigits (n : ℕ) : List Char := (Nat.repr n).data

/-- The deterministic explanation template of the matching service. -/
def generate_explanation_text (overall_score : ℚ)
    (skill_overlap skill_gaps : List (List Char))
    (experience_match education_match : Bool) : List Char :=
  let p1 := if 80 ≤ overall_score then lc "Excellent match!"
            else if 60 ≤ overall_score then lc "Good match with room for improvement."
            else if 40 ≤ overall_score then lc "Moderate match. Consider upskilling."
            else lc "Limited match. Significant gaps identified."
  let parts := [p1]
  let parts := parts ++
    (if skill_overlap.isEmpty then []
     else
       [lc "Matching skills: " ++ joinWith (lc ", ") (skill_overlap.take 5)] ++
       (if 5 < skill_overlap.length then
          [lc "...and " ++ natDigits (skill_overlap.length - 5) ++ lc " more."]
        else []))
  let parts := parts ++
    (if skill_gaps.isEmpty then []
     else [lc "Skills to develop: " ++ joinWith (lc ", ") (skill_gaps.take 5)])
  let parts := parts ++
    (if experience_match then [lc "Experience level meets requirements."]
     else [lc "Additional experience may be beneficial."])
  let parts := parts ++
    (if education_match then [lc "Education requirements satisfied."] else [])
  joinWith [' '] parts

/-- The scoring weights of the matching service. -/
def W_skill : ℚ := 0.40

/-- Weight of the semantic component. -/
def W_semantic : ℚ := 0.30

/-- Weight of the experience component. -/
def W_experience : ℚ := 0.20

/-- Weight of the education component. -/
def W_education : ℚ := 0.10

/-- The match record produced by calculate_match. -/
structure MatchResult where
  overall_score : ℚ
  skill_score : ℚ
  experience_score : ℚ
  education_score : ℚ
  semantic_score : ℚ
  skill_overlap : List (List Char)
  skill_gaps : List (List Char)
  explanation : List Char
  fi_skills : ℚ
  fi_semantic : ℚ
  fi_experience : ℚ
  fi_education : ℚ

/-- Comprehensive match score between a resume and a job. -/
def calculate_match (embedE : List Char → Except (List Char) (List ℚ))
    (cosRaw : List ℚ → List ℚ → ℚ) (resume : Resume) (job : Job) : MatchResult :=
  let skill_result := calculate_skill_score resume job
  let semantic_score := calculate_semantic_score embedE cosRaw resume job
  let experience_score := calculate_experience_score resume job
  let education_score := calculate_education_score resume job
  let overall_score :=
    skill_result.score * W_skill + semantic_score * W_semantic +
      experience_score * W_experience + education_score * W_education
  { overall_score := round2 overall_score
    skill_score := round2 skill_result.score
    experience_score := round2 experience_score
    education_score := round2 education_score
    semantic_score := round2 semantic_score
    skill_overlap := skill_result.overlap
    skill_gaps := skill_result.gaps
    explanation :=
      generate_explanation_text overall_score skill_result.overlap
        skill_result.gaps (decide (70 < experience_score))
        (decide (70 < education_score))
    fi_skills := W_skill * (skill_result.score / 100)
    fi_semantic := W_semantic * (semantic_score / 100)
    fi_experience := W_experience * (experience_score / 100)
    fi_education := W_education * (education_score / 100) }

/-! Skill extractor service. -/

/-- A word character in the sense of the regex class backslash-w, for the
ASCII texts the services handle. -/
def isWordChar (c : Char) : Bool := c.isAlpha || c.isDigit || c == '_'

/-- The static skills taxonomy, key and category, in source order. -/
def SKILLS_DATABASE : List (List Char × List Char) :=
  [(lc "python", lc "technical"), (lc "javascript", lc "technical"),
   (lc "typescript", lc "technical"), (lc "java", lc "technical"),
   (lc "c++", lc "technical"), (lc "c#", lc "technical"),
   (lc "go", lc "technical"), (lc "golang", lc "technical"),
   (lc "rust", lc "technical"), (lc "ruby", lc "technical"),
   (lc "php", lc "technical"), (lc "swift", lc "technical"),
   (lc "kotlin", lc "technical"), (lc "scala", lc "technical"),
   (lc "r", lc "technical"), (lc "matlab", lc "technical"),
   (lc "sql", lc "technical"), (lc "html", lc "technical"),
   (lc "css", lc "technical"), (lc "react", lc "technical"),
   (lc "reactjs", lc "technical"), (lc "react.js", lc "technical"),
   (lc "angular", lc "technical"), (lc "vue", lc "technical"),
   (lc "vuejs", lc "technical"), (lc "vue.js", lc "technical"),
   (lc "nodejs", lc "technical"), (lc "node.js", lc "technical"),
   (lc "express", lc "technical"), (lc "django", lc "technical"),
   (lc "flask", lc "technical"), (lc "fastapi", lc "technical"),
   (lc "spring", lc "technical"), (lc "spring boot", lc "technical"),
   (lc "asp.net", lc "technical"), (lc "tailwindcss", lc "technical"),
   (lc "bootstrap", lc "technical"), (lc "sass", lc "technical"),
   (lc "webpack", lc "technical"), (lc "nextjs", lc "technical"),
   (lc "next.js", lc "technical"), (lc "mysql", lc "technical"),
   (lc "postgresql", lc "technical"), (lc "mongodb", lc "technical"),
   (lc "redis", lc "technical"), (lc "elasticsearch", lc "technical"),
   (lc "sqlite", lc "technical"), (lc "oracle", lc "technical"),
   (lc "cassandra", lc "technical"), (lc "dynamodb", lc "technical"),
   (lc "aws", lc "technical"), (lc "amazon web services", lc "technical"),
   (lc "azure", lc "technical"), (lc "gcp", lc "technical"),
   (lc "google cloud", lc "technical"), (lc "docker", lc "technical"),
   (lc "kubernetes", lc "technical"), (lc "k8s", lc "technical"),
   (lc "terraform", lc "technical"), (lc "ansible", lc "technical"),
   (lc "jenkins", lc "technical"), (lc "ci/cd", lc "technical"),
   (lc "github actions", lc "technical"), (lc "gitlab ci", lc "technical"),
   (lc "linux", lc "technical"), (lc "unix", lc "technical"),
   (lc "bash", lc "technical"), (lc "machine learning", lc "technical"),
   (lc "deep learning", lc "technical"),
   (lc "artificial intelligence", lc "technical"), (lc "ai", lc "technical"),
   (lc "ml", lc "technical"), (lc "tensorflow", lc "technical"),
   (lc "pytorch", lc "technical"), (lc "keras", lc "technical"),
   (lc "scikit-learn", lc "technical"), (lc "sklearn", lc "technical"),
   (lc "pandas", lc "technical"), (lc "numpy", lc "technical"),
   (lc "scipy", lc "technical"), (lc "matplotlib", lc "technical"),
   (lc "data analysis", lc "technical"), (lc "data science", lc "technical"),
   (lc "nlp", lc "technical"),
   (lc "natural language processing", lc "technical"),
   (lc "computer vision", lc "technical"), (lc "opencv", lc "technical"),
   (lc "neural networks", lc "technical"), (lc "transformers", lc "technical"),
   (lc "bert", lc "technical"), (lc "gpt", lc "technical"),
   (lc "llm", lc "technical"), (lc "huggingface", lc "technical"),
   (lc "git", lc "technical"), (lc "github", lc "technical"),
   (lc "gitlab", lc "technical"), (lc "jira", lc "technical"),
   (lc "confluence", lc "technical"), (lc "slack", lc "technical"),
   (lc "figma", lc "technical"), (lc "postman", lc "technical"),
   (lc "swagger", lc "technical"), (lc "graphql", lc "technical"),
   (lc "rest api", lc "technical"), (lc "restful", lc "technical"),
   (lc "microservices", lc "technical"), (lc "agile", lc "methodological"),
   (lc "scrum", lc "methodological"), (lc "kanban", lc "methodological"),
   (lc "leadership", lc "soft"), (lc "communication", lc "soft"),
   (lc "teamwork", lc "soft"), (lc "problem solving", lc "soft"),
   (lc "problem-solving", lc "soft"), (lc "critical thinking", lc "soft"),
   (lc "time management", lc "soft"), (lc "project management", lc "soft"),
   (lc "analytical", lc "soft"), (lc "creative", lc "soft"),
   (lc "detail-oriented", lc "soft"), (lc "self-motivated", lc "soft"),
   (lc "adaptability", lc "soft"), (lc "collaboration", lc "soft"),
   (lc "mentoring", lc "soft"), (lc "presentation", lc "soft")]

/-- The alias table rewriting informal spellings to canonical keys. -/
def SKILL_ALIASES : List (List Char × List Char) :=
  [(lc "reactjs", lc "react"), (lc "react.js", lc "react"),
   (lc "vuejs", lc "vue"), (lc "vue.js", lc "vue"),
   (lc "nodejs", lc "node.js"), (lc "nextjs", lc "next.js"),
   (lc "golang", lc "go"), (lc "k8s", lc "kubernetes"),
   (lc "postgres", lc "postgresql"), (lc "mongo", lc "mongodb"),
   (lc "sklearn", lc "scikit-learn"), (lc "tf", lc "tensorflow")]

/-- Is the character at index i of the text a word character; indices
outside the text count as non-word, as in regex boundary semantics. -/
def isWordIdx (t : List Char) (i : ℕ) : Bool := isWordChar (t.getD i ' ')

/-- Regex word boundary at position p of the text: exactly one of the
neighbouring sides is a word character. -/
def boundaryAt (t : List Char) (p : ℕ) : Bool :=
  (if p = 0 then false else isWordIdx t (p - 1)) != isWordIdx t p

/-- Does re.search find the escaped skill wrapped in word boundaries
inside the text: some start position carries the literal characters of
the skill with a word boundary on both ends. -/
def kwMatch (s : List Char) (t : List Char) : Bool :=
  (List.range (t.length + 1)).any fun i =>
    startsList s (t.drop i) && boundaryAt t i && boundaryAt t (i + s.length)

/-- The keyword extraction pass over the lowered text. -/
def extract_by_keywords (text : List Char) : List (List Char) :=
  SKILLS_DATABASE.filterMap fun kv => if kwMatch kv.1 text then some kv.1 else none

/-- Rewrite one skill through the alias table. -/
def normalize_one (s : List Char) : List Char :=
  match SKILL_ALIASES.find? fun kv => kv.1 == s with
  | some kv => kv.2
  | none => s

/-- Normalize and deduplicate a skill collection. -/
def normalize_skills (l : List (List Char)) : List (List Char) :=
  (l.map normalize_one).dedup

/-- Full skill extraction.  The optional linguistic pass (spaCy) is a
parameter; when absent the keyword pass alone feeds normalization, as in
the service's degraded mode. -/
def extract_skills (nlpPass : Option (List Char → List (List Char)))
    (text : List Char) : List (List Char) :=
  if text.isEmpty then []
  else
    let text_lower := lowStr text
    let keyword_skills := extract_by_keywords text_lower
    let all_skills :=
      match nlpPass with
      | some f =>
          keyword_skills ++ (f text).filter fun s => !keyword_skills.contains s
      | none => keyword_skills
    normalize_skills all_skills

/-! Resume parser service. -/

/-- A whitespace character in the sense of the regex class backslash-s. -/
def isSpaceChar (c : Char) : Bool :=
  c == ' ' || c == '\t' || c == '\n' || c == '\x0d' || c == '\x0b' || c == '\x0c'

/-- Collapse every whitespace run to one space; the flag records whether
the previous character was whitespace. -/
def collapseWSAux (prevSpace : Bool) : List Char → List Char
  | [] => []
  | c :: rest =>
      if isSpaceChar c then
        if prevSpace then collapseWSAux true rest
        else ' ' :: collapseWSAux true rest
      else c :: collapseWSAux false rest

/-- re.sub of one-or-more whitespace by a single space. -/
def collapseWS (l : List Char) : List Char := collapseWSAux false l

/-- Characters kept by the cleaning whitelist. -/
def keepChar (c : Char) : Bool :=
  isWordChar c || isSpaceChar c ||
    [',', '.', ';', ':', '!', '?', '@', '#', '$', '%', '&', '*', '(', ')',
     '-', '+', '=', '[', ']', '\x7b', '\x7d', '\'', '\"', '/'].contains c

/-- Python str.strip of whitespace. -/
def trimWS (l : List Char) : List Char :=
  ((l.dropWhile isSpaceChar).reverse.dropWhile isSpaceChar).reverse

/-- The text cleaning of the parser: collapse whitespace, strip characters
outside the whitelist, strip outer whitespace. -/
def cleanText (t : List Char) : List Char :=
  trimWS ((collapseWS t).filter keepChar)

/-- Outcome of parsing an uploaded document. -/
inductive ParseOutcome
  | ok (raw : List Char)
  | unsupported
  | extractionError
deriving DecidableEq

/-- PDF text extraction.  Each strategy is a parameter: some text when
the library call succeeds, none when it raises.  A raising strategy
leaves the accumulated text unchanged; the robust fallback runs only when
the fast pass produced fewer than 100 stripped characters. -/
def extract_pdf_text (pypdf2 pdfminer : Option (List Char)) : List Char :=
  let text := pypdf2.getD []
  let text :=
    if (trimWS text).length < 100 then
      match pdfminer with
      | some u => u
      | none => text
    else text
  cleanText text

/-- DOCX text extraction: the document-order text when the library call
succeeds, an error when it raises. -/
def extract_docx_text (docx : Option (List Char)) : Except Unit (List Char) :=
  match docx with
  | some t => .ok (cleanText t)
  | none => .error ()

/-- The format dispatch of parse: raw-text extraction with its error
behaviour.  Unknown extensions are rejected; a failing DOCX extraction
propagates as an extraction error. -/
def parse_raw_text (ext : List Char) (pypdf2 pdfminer docx : Option (List Char)) :
    ParseOutcome :=
  if lowStr ext = lc ".pdf" then .ok (extract_pdf_text pypdf2 pdfminer)
  else if lowStr ext = lc ".docx" ∨ lowStr ext = lc ".doc" then
    match extract_docx_text docx with
    | .ok t => .ok t
    | .error _ => .extractionError
  else .unsupported

/-- Numeric value of a digit character. -/
def digitVal (c : Char) : ℕ := c.toNat - 48

/-- First run of four consecutive digits in the string, as the regex
search for four digits. -/
def findYear : List Char → Option ℕ
  | c1 :: c2 :: c3 :: c4 :: rest =>
      if c1.isDigit && c2.isDigit && c3.isDigit && c4.isDigit then
        some (digitVal c1 * 1000 + digitVal c2 * 100 + digitVal c3 * 10 + digitVal c4)
      else findYear (c2 :: c3 :: c4 :: rest)
  | _ => none

/-- Date parsing of the resume parser: the first four-digit year found
anywhere in the string resolves to June 1 of that year; a year outside
the datetime range (0) raises and yields none. -/
def parse_date (s : List Char) : Option (ℕ × ℕ) :=
  if s.isEmpty then none
  else
    match findYear s with
    | some y => if 1 ≤ y then some (y, 6) else none
    | none => none

/-- Months one work-history entry contributes: the difference between the
resolved end and start dates, clamped at zero; zero when either date is
unparseable.  now is the current (year, month). -/
def entryMonths (now : ℕ × ℕ) (e : WorkEntry) : ℕ :=
  match parse_date e.start_date with
  | none => 0
  | some s =>
      let endOpt :=
        if lowStr e.end_date = lc "present" ∨ lowStr e.end_date = lc "current" then
          some now
        else parse_date e.end_date
      match endOpt with
      | none => 0
      | some en => (((en.1 : ℤ) - (s.1 : ℤ)) * 12 + ((en.2 : ℤ) - (s.2 : ℤ))).toNat

/-- Total whole years of experience: the loop sums the per-entry months
and floor-divides by 12. -/
def calculate_experience_years (now : ℕ × ℕ) (wh : List WorkEntry) : ℕ :=
  if wh.isEmpty then 0
  else (wh.foldl (fun acc e => acc + entryMonths now e) 0) / 12

/-! Recommendation service. -/

/-- The user filters of a recommendation request. -/
structure Filters where
  location : Option (List Char)
  job_type : Option (List Char)
  remote_option : Option (List Char)
  min_salary : Option ℚ
  max_salary : Option ℚ

/-- Python truthiness of an optional string filter value. -/
def providedS (o : Option (List Char)) : Bool :=
  match o with
  | some s => !s.isEmpty
  | none => false

/-- Python truthiness of an optional numeric filter value. -/
def providedQ (o : Option ℚ) : Bool :=
  match o with
  | some v => decide (v ≠ 0)
  | none => false

/-- The conjunctive filter chain applied before scoring. -/
def apply_filters (jobs : List Job) (filters : Option Filters) : List Job :=
  match filters with
  | none => jobs
  | some f =>
      let l := jobs
      let l := if providedS f.location then
          l.filter fun j =>
            containsList (lowStr (f.location.getD [])) (lowStr (j.location.getD []))
        else l
      let l := if providedS f.job_type then
          l.filter fun j => lowStr (j.job_type.getD []) == lowStr (f.job_type.getD [])
        else l
      let l := if providedS f.remote_option then
          l.filter fun j =>
            lowStr (j.remote_option.getD []) == lowStr (f.remote_option.getD [])
        else l
      let l := if providedQ f.min_salary then
          l.filter fun j => decide (f.min_salary.getD 0 ≤ j.salary_min.getD 0)
        else l
      let l := if providedQ f.max_salary then
          l.filter fun j =>
            match j.salary_max with
            | some v => if v = 0 then false else decide (v ≤ f.max_salary.getD 0)
            | none => false
        else l
      l

/-- One scored job of the ranking loop. -/
structure ScoredEntry where
  job : Job
  score : ℚ
  skill_overlap : List (List Char)
  skill_gaps : List (List Char)
  explanation : List Char

/-- The scoring loop: a job whose scorer call raises is skipped and the
loop continues with the next job. -/
def scoredList (scorer : Job → Except (List Char) MatchResult) (jobs : List Job) :
    List ScoredEntry :=
  jobs.filterMap fun j =>
    match scorer j with
    | .ok m => some ⟨j, m.overall_score, m.skill_overlap, m.skill_gaps, m.explanation⟩
    | .error _ => none

/-- Sorting order of the ranking step: higher score first. -/
def byScoreDesc (a b : ScoredEntry) : Prop := b.score ≤ a.score

instance : DecidableRel byScoreDesc :=
  fun a b => inferInstanceAs (Decidable (b.score ≤ a.score))

instance : IsTotal ScoredEntry byScoreDesc := ⟨fun a b => le_total b.score a.score⟩

instance : IsTrans ScoredEntry byScoreDesc := ⟨fun _ _ _ h1 h2 => le_trans h2 h1⟩

/-- Python's list.sort with reverse true is a stable descending sort;
insertion sort with the descending order is its unique stable result. -/
def sortJobs (l : List ScoredEntry) : List ScoredEntry := l.insertionSort byScoreDesc

/-- Decimal digits of an integer, for the percent formatting. -/
def intDigits (n : ℤ) : List Char := n.repr.data

/-- Group the digit string in threes, as the comma number format; the
input digits arrive least significant first. -/
def chunk3 : List Char → List (List Char)
  | [] => []
  | [a] => [[a]]
  | [a, b] => [[a, b]]
  | [a, b, c] => [[a, b, c]]
  | a :: b :: c :: rest => [a, b, c] :: chunk3 rest

/-- The comma money format of a salary value rounded to whole units. -/
def moneyFmt (q : ℚ) : List Char :=
  let s := (Int.natAbs (pyRound q)).repr.data
  joinWith [','] ((chunk3 s.reverse).map List.reverse).reverse

/-- The salary range string of a recommendation, present only when both
bounds are truthy. -/
def salaryRange (job : Job) : Option (List Char) :=
  if providedQ job.salary_min && providedQ job.salary_max then
    some (lc "$" ++ moneyFmt (job.salary_min.getD 0) ++ lc " - $"
          ++ moneyFmt (job.salary_max.getD 0))
  else none

/-- The at-most-three match highlights of a recommendation. -/
def generate_highlights (e : ScoredEntry) : List (List Char) :=
  let h1 := if 80 ≤ e.score then [lc "🎯 Excellent match for your profile"]
            else if 70 ≤ e.score then [lc "✨ Strong alignment with your skills"]
            else if 60 ≤ e.score then [lc "📈 Good growth opportunity"]
            else []
  let h2 := if 5 ≤ e.skill_overlap.length then
              [lc "💪 " ++ natDigits e.skill_overlap.length
                ++ lc " skills match required skills"]
            else if 3 ≤ e.skill_overlap.length then [lc "✓ Core skills aligned"]
            else []
  let h3 := if e.skill_gaps.length ≤ 2 then [lc "📋 Minimal skill gaps"]
            else if e.skill_gaps.length ≤ 5 then
              [lc "📚 Achievable skill development path"]
            else []
  (h1 ++ h2 ++ h3).take 3

/-- The rank-aware per-item explanation. -/
def generate_rec_explanation (e : ScoredEntry) (rank : ℕ) : List Char :=
  let intro :=
    if rank = 1 then lc "Top recommendation with " ++ intDigits (pyRound e.score)
      ++ lc "% match."
    else if rank ≤ 3 then lc "Highly recommended (" ++ intDigits (pyRound e.score)
      ++ lc "% match)."
    else lc "Good fit (" ++ intDigits (pyRound e.score) ++ lc "% match)."
  let skills :=
    if e.skill_overlap.isEmpty then []
    else if 3 < e.skill_overlap.length then
      [lc "Your " ++ joinWith (lc ", ") (e.skill_overlap.take 3) ++ lc " and "
        ++ natDigits (e.skill_overlap.length - 3) ++ lc " other skills align well."]
    else [lc "Your " ++ joinWith (lc ", ") e.skill_overlap ++ lc " skills are relevant."]
  let growth :=
    if e.skill_gaps.isEmpty then []
    else [lc "Opportunity to develop: " ++ joinWith (lc ", ") (e.skill_gaps.take 2)
           ++ lc "."]
  joinWith [' '] ([intro] ++ skills ++ growth)

/-- One item of the recommendation response. -/
structure RecommendedJob where
  job_id : ℕ
  rank : ℕ
  score : ℚ
  title : List Char
  company : List Char
  location : Option (List Char)
  salary_range : Option (List Char)
  explanation : List Char
  skill_overlap : List (List Char)
  skill_gaps : List (List Char)
  match_highlights : List (List Char)

/-- Build the response item of one ranked entry. -/
def mkRecommendedJob (rank : ℕ) (e : ScoredEntry) : RecommendedJob :=
  { job_id := e.job.id
    rank := rank
    score := round2 e.score
    title := e.job.title
    company := e.job.company
    location := e.job.location
    salary_range := salaryRange e.job
    explanation := generate_rec_explanation e rank
    skill_overlap := e.skill_overlap.take 5
    skill_gaps := e.skill_gaps.take 5
    match_highlights := generate_highlights e }

/-- Enumerate the truncated ranking from 1. -/
def assignRanks : ℕ → List ScoredEntry → List RecommendedJob
  | _, [] => []
  | n, e :: es => mkRecommendedJob n e :: assignRanks (n + 1) es

/-- The full recommendation pipeline: filter, score with per-job failure
isolation, stable-sort descending, truncate, rank. -/
def generate (scorer : Job → Except (List Char) MatchResult) (jobs : List Job)
    (filters : Option Filters) (limit : ℕ) : List RecommendedJob :=
  if jobs.isEmpty then []
  else
    let filtered := apply_filters jobs filters
    if filtered.isEmpty then []
    else assignRanks 1 ((sortJobs (scoredList scorer filtered)).take limit)

/-! Component bound lemmas for the match scorer. -/

theorem compute_similarity_mem (cosRaw : List ℚ → List ℚ → ℚ) (e1 e2 : List ℚ) :
    0 ≤ compute_similarity cosRaw e1 e2 ∧ compute_similarity cosRaw e1 e2 ≤ 1 := by
  unfold compute_similarity
  split_ifs with h
  · norm_num
  · exact ⟨le_max_left 0 _, max_le (by norm_num) (min_le_left _ _)⟩

theorem skill_score_mem (resume : Resume) (job : Job) :
    0 ≤ (calculate_skill_score resume job).score ∧
      (calculate_skill_score resume job).score ≤ 100 := by
  by_cases h : lowerSetL job.skills_required = []
  · simp [calculate_skill_score, h]
  · have hpos : 0 < (lowerSetL job.skills_required).length :=
      List.length_pos.mpr h
    have hnd : ((lowerSetL resume.skills).filter
        fun s => decide (s ∈ lowerSetL job.skills_required)).Nodup :=
      (List.nodup_dedup _).filter _
    have hsub : ((lowerSetL resume.skills).filter
        fun s => decide (s ∈ lowerSetL job.skills_required)).toFinset ⊆
        (lowerSetL job.skills_required).toFinset := by
      intro x hx
      rw [List.mem_toFinset] at hx ⊢
      exact of_decide_eq_true (List.mem_filter.mp hx).2
    have hlen : ((lowerSetL resume.skills).filter
        fun s => decide (s ∈ lowerSetL job.skills_required)).length ≤
        (lowerSetL job.skills_required).length := by
      calc _ = ((lowerSetL resume.skills).filter
            fun s => decide (s ∈ lowerSetL job.skills_required)).toFinset.card :=
              (List.toFinset_card_of_nodup hnd).symm
        _ ≤ (lowerSetL job.skills_required).toFinset.card := Finset.card_le_card hsub
        _ = (lowerSetL job.skills_required).length :=
              List.toFinset_card_of_nodup (List.nodup_dedup _)
    have hrw : (calculate_skill_score resume job).score =
        (((lowerSetL resume.skills).filter
          fun s => decide (s ∈ lowerSetL job.skills_required)).length : ℚ) /
          ((lowerSetL job.skills_required).length : ℚ) * 100 := by
      simp only [calculate_skill_score]
      rw [if_neg h]
    have hq : (((lowerSetL resume.skills).filter
        (fun s => decide (s ∈ lowerSetL job.skills_required))).length : ℚ) /
        ((lowerSetL job.skills_required).length : ℚ) ≤ 1 := by
      rw [div_le_one (by exact_mod_cast hpos)]
      exact_mod_cast hlen
    have hq0 : (0:ℚ) ≤ (((lowerSetL resume.skills).filter
        (fun s => decide (s ∈ lowerSetL job.skills_required))).length : ℚ) /
        ((lowerSetL job.skills_required).length : ℚ) := by positivity
    rw [hrw]
    constructor <;> nlinarith

theorem semantic_score_mem (embedE : List Char → Except (List Char) (List ℚ))
    (cosRaw : List ℚ → List ℚ → ℚ) (resume : Resume) (job : Job) :
    0 ≤ calculate_semantic_score embedE cosRaw resume job ∧
      calculate_semantic_score embedE cosRaw resume job ≤ 100 := by
  simp only [calculate_semantic_score]
  split_ifs with h
  · norm_num
  · cases h1 : embedE (resume.raw_text.getD []) with
    | error e => refine ⟨?_, ?_⟩ <;> simp [h1, Bind.bind, Except.bind] <;> norm_num
    | ok a =>
        cases h2 : embedE (jobText job) with
        | error e =>
            refine ⟨?_, ?_⟩ <;> simp [h1, h2, Bind.bind, Except.bind] <;> norm_num
        | ok b =>
            simp only [h1, h2, Bind.bind, Except.bind, pure, Except.pure]
            obtain ⟨hl, hr⟩ := compute_similarity_mem cosRaw a b
            constructor <;> nlinarith

theorem experience_score_mem (resume : Resume) (job : Job) :
    0 ≤ calculate_experience_score resume job ∧
      calculate_experience_score resume job ≤ 100 := by
  simp only [calculate_experience_score]
  split_ifs with h1 h2
  · norm_num
  · norm_num
  · refine ⟨le_min (by norm_num) (by positivity), min_le_left _ _⟩

theorem education_score_mem (resume : Resume) (job : Job) :
    0 ≤ calculate_education_score resume job ∧
      calculate_education_score resume job ≤ 100 := by
  simp only [calculate_education_score]
  split_ifs with h1 h2 h3
  · norm_num
  · norm_num
  · norm_num
  · have hreq : 0 < firstLevel edu_levels (lowStr (job.education_required.getD [])) :=
      Nat.pos_of_ne_zero h2
    have hlt : candidateLevel resume.education <
        firstLevel edu_levels (lowStr (job.education_required.getD [])) :=
      Nat.lt_of_not_le h3
    have hq : (candidateLevel resume.education : ℚ) /
        (firstLevel edu_levels (lowStr (job.education_required.getD [])) : ℚ) ≤ 1 := by
      rw [div_le_one (by exact_mod_cast hreq)]
      exact_mod_cast hlt.le
    have h0 : (0:ℚ) ≤ (candidateLevel resume.education : ℚ) /
        (firstLevel edu_levels (lowStr (job.education_required.getD [])) : ℚ) := by
      positivity
    constructor <;> nlinarith

/-- C1: for every resume and job, calculate_match returns an overall score
in [0,100] and each component score in [0,100], with the overall score the
weighted sum 0.40 skill + 0.30 semantic + 0.20 experience + 0.10 education
of the component values (rounded to two decimals on output), the four
weights summing to 1. -/
theorem C1_match_scores_bounded_and_weighted
    (embedE : List Char → Except (List Char) (List ℚ))
    (cosRaw : List ℚ → List ℚ → ℚ) (resume : Resume) (job : Job) :
    (0 ≤ (calculate_match embedE cosRaw resume job).overall_score ∧
      (calculate_match embedE cosRaw resume job).overall_score ≤ 100) ∧
    (0 ≤ (calculate_match embedE cosRaw resume job).skill_score ∧
      (calculate_match embedE cosRaw resume job).skill_score ≤ 100) ∧
    (0 ≤ (calculate_match embedE cosRaw resume job).semantic_score ∧
      (calculate_match embedE cosRaw resume job).semantic_score ≤ 100) ∧
    (0 ≤ (calculate_match embedE cosRaw resume job).experience_score ∧
      (calculate_match embedE cosRaw resume job).experience_score ≤ 100) ∧
    (0 ≤ (calculate_match embedE cosRaw resume job).education_score ∧
      (calculate_match embedE cosRaw resume job).education_score ≤ 100) ∧
    (calculate_match embedE cosRaw resume job).overall_score =
      round2 (0.40 * (calculate_skill_score resume job).score
        + 0.30 * calculate_semantic_score embedE cosRaw resume job
        + 0.20 * calculate_experience_score resume job
        + 0.10 * calculate_education_score resume job) ∧
    W_skill + W_semantic + W_experience + W_education = 1 := by
  obtain ⟨sk0, sk1⟩ := skill_score_mem resume job
  obtain ⟨se0, se1⟩ := semantic_score_mem embedE cosRaw resume job
  obtain ⟨ex0, ex1⟩ := experience_score_mem resume job
  obtain ⟨ed0, ed1⟩ := education_score_mem resume job
  have hw : (calculate_match embedE cosRaw resume job).overall_score =
      round2 ((calculate_skill_score resume job).score * W_skill
        + calculate_semantic_score embedE cosRaw resume job * W_semantic
        + calculate_experience_score resume job * W_experience
        + calculate_education_score resume job * W_education) := rfl
  have hraw0 : 0 ≤ (calculate_skill_score resume job).score * W_skill
      + calculate_semantic_score embedE cosRaw resume job * W_semantic
      + calculate_experience_score resume job * W_experience
      + calculate_education_score resume job * W_education := by
    unfold W_skill W_semantic W_experience W_education
    nlinarith
  have hraw1 : (calculate_skill_score resume job).score * W_skill
      + calculate_semantic_score embedE cosRaw resume job * W_semantic
      + calculate_experience_score resume job * W_experience
      + calculate_education_score resume job * W_education ≤ 100 := by
    unfold W_skill W_semantic W_experience W_education
    nlinarith
  refine ⟨⟨?_, ?_⟩, ⟨?_, ?_⟩, ⟨?_, ?_⟩, ⟨?_, ?_⟩, ⟨?_, ?_⟩, ?_, ?_⟩
  · rw [hw]; exact round2_nonneg hraw0
  · rw [hw]; exact round2_le_100 hraw1
  · exact round2_nonneg sk0
  · exact round2_le_100 sk1
  · exact round2_nonneg se0
  · exact round2_le_100 se1
  · exact round2_nonneg ex0
  · exact round2_le_100 ex1
  · exact round2_nonneg ed0
  · exact round2_le_100 ed1
  · rw [hw]; congr 1; unfold W_skill W_semantic W_experience W_education; ring
  · unfold W_skill W_semantic W_experience W_education; norm_num

/-! Claim C2: the skill partition invariants. -/

theorem lowerSetL_toFinset (l : List (List Char)) :
    (lowerSetL l).toFinset = lowerSet l := by
  ext x
  simp [lowerSetL, lowerSet, List.mem_dedup]

theorem lowerSet_empty_iff (l : List (List Char)) :
    lowerSet l = ∅ ↔ lowerSetL l = [] := by
  rw [← lowerSetL_toFinset, List.toFinset_eq_empty_iff]

theorem skill_overlap_eq (resume : Resume) (job : Job)
    (h : lowerSetL job.skills_required ≠ []) :
    (calculate_skill_score resume job).overlap.toFinset =
      lowerSet resume.skills ∩ lowerSet job.skills_required := by
  have hover : (calculate_skill_score resume job).overlap =
      (lowerSetL resume.skills).filter
        fun s => decide (s ∈ lowerSetL job.skills_required) := by
    simp only [calculate_skill_score]
    rw [if_neg h]
  rw [hover]
  ext x
  simp [lowerSetL, lowerSet, List.mem_filter, List.mem_dedup]

theorem skill_gaps_eq (resume : Resume) (job : Job)
    (h : lowerSetL job.skills_required ≠ []) :
    (calculate_skill_score resume job).gaps.toFinset =
      lowerSet job.skills_required \ lowerSet resume.skills := by
  have hgaps : (calculate_skill_score resume job).gaps =
      (lowerSetL job.skills_required).filter
        fun s => decide (s ∉ lowerSetL resume.skills) := by
    simp only [calculate_skill_score]
    rw [if_neg h]
  rw [hgaps]
  ext x
  simp [lowerSetL, lowerSet, List.mem_filter, List.mem_dedup]

/-- C2: with a non-empty requirement set, overlap and gaps are disjoint
and partition the lowered required-skill set, the overlap is the
case-insensitive intersection with the resume skills, and the score is
the overlap share of the required set times 100; with no required skills
the score is 100. -/
theorem C2_skill_partition_and_score (resume : Resume) (job : Job) :
    (lowerSet job.skills_required ≠ ∅ →
      (calculate_skill_score resume job).overlap.toFinset ∩
          (calculate_skill_score resume job).gaps.toFinset = ∅ ∧
      (calculate_skill_score resume job).overlap.toFinset ∪
          (calculate_skill_score resume job).gaps.toFinset =
        lowerSet job.skills_required ∧
      (calculate_skill_score resume job).overlap.toFinset =
        lowerSet resume.skills ∩ lowerSet job.skills_required ∧
      (calculate_skill_score resume job).score =
        ((lowerSet resume.skills ∩ lowerSet job.skills_required).card : ℚ) /
          ((lowerSet job.skills_required).card : ℚ) * 100) ∧
    (lowerSet job.skills_required = ∅ →
      (calculate_skill_score resume job).score = 100) := by
  constructor
  · intro hne
    have h : lowerSetL job.skills_required ≠ [] :=
      fun h0 => hne ((lowerSet_empty_iff _).mpr h0)
    have hoF := skill_overlap_eq resume job h
    have hgF := skill_gaps_eq resume job h
    refine ⟨?_, ?_, hoF, ?_⟩
    · rw [hoF, hgF]
      ext x
      simp only [Finset.mem_inter, Finset.mem_sdiff, Finset.not_mem_empty, iff_false]
      tauto
    · rw [hoF, hgF]
      ext x
      simp only [Finset.mem_union, Finset.mem_inter, Finset.mem_sdiff]
      tauto
    · have hscore : (calculate_skill_score resume job).score =
          (((lowerSetL resume.skills).filter
            fun s => decide (s ∈ lowerSetL job.skills_required)).length : ℚ) /
            ((lowerSetL job.skills_required).length : ℚ) * 100 := by
        simp only [calculate_skill_score]
        rw [if_neg h]
      have hover : (calculate_skill_score resume job).overlap =
          (lowerSetL resume.skills).filter
            fun s => decide (s ∈ lowerSetL job.skills_required) := by
        simp only [calculate_skill_score]
        rw [if_neg h]
      have hnd : ((lowerSetL resume.skills).filter
          fun s => decide (s ∈ lowerSetL job.skills_required)).Nodup :=
        (List.nodup_dedup _).filter _
      have hlo : ((lowerSetL resume.skills).filter
          fun s => decide (s ∈ lowerSetL job.skills_required)).length =
          (lowerSet resume.skills ∩ lowerSet job.skills_required).card := by
        rw [← List.toFinset_card_of_nodup hnd, ← hover, hoF]
      have hlj : (lowerSetL job.skills_required).length =
          (lowerSet job.skills_required).card := by
        rw [← lowerSetL_toFinset]
        exact (List.toFinset_card_of_nodup
          (by unfold lowerSetL; exact List.nodup_dedup _)).symm
      rw [hscore, hlo, hlj]
  · intro hemp
    have h : lowerSetL job.skills_required = [] := (lowerSet_empty_iff _).mp hemp
    simp [calculate_skill_score, h]

theorem C2_skill_partition_witness :
    lowerSet ([lc "python", lc "SQL", lc "docker"]) ≠ ∅ ∧
    ((calculate_skill_score
        { raw_text := none, skills := [lc "Python", lc "sql"],
          experience_years := none, education := [] }
        { id := 1, title := lc "t", company := lc "c", description := lc "d",
          requirements := none,
          skills_required := [lc "python", lc "SQL", lc "docker"],
          experience_required := none, education_required := none,
          location := none, job_type := none, remote_option := none,
          salary_min := none, salary_max := none }).overlap.toFinset ∩
      (calculate_skill_score
        { raw_text := none, skills := [lc "Python", lc "sql"],
          experience_years := none, education := [] }
        { id := 1, title := lc "t", company := lc "c", description := lc "d",
          requirements := none,
          skills_required := [lc "python", lc "SQL", lc "docker"],
          experience_required := none, education_required := none,
          location := none, job_type := none, remote_option := none,
          salary_min := none, salary_max := none }).gaps.toFinset = ∅ ∧
      (calculate_skill_score
        { raw_text := none, skills := [lc "Python", lc "sql"],
          experience_years := none, education := [] }
        { id := 1, title := lc "t", company := lc "c", description := lc "d",
          requirements := none,
          skills_required := [lc "python", lc "SQL", lc "docker"],
          experience_required := none, education_required := none,
          location := none, job_type := none, remote_option := none,
          salary_min := none, salary_max := none }).overlap.toFinset ∪
      (calculate_skill_score
        { raw_text := none, skills := [lc "Python", lc "sql"],
          experience_years := none, education := [] }
        { id := 1, title := lc "t", company := lc "c", description := lc "d",
          requirements := none,
          skills_required := [lc "python", lc "SQL", lc "docker"],
          experience_required := none, education_required := none,
          location := none, job_type := none, remote_option := none,
          salary_min := none, salary_max := none }).gaps.toFinset =
        lowerSet ([lc "python", lc "SQL", lc "docker"]) ∧
      (calculate_skill_score
        { raw_text := none, skills := [lc "Python", lc "sql"],
          experience_years := none, education := [] }
        { id := 1, title := lc "t", company := lc "c", description := lc "d",
          requirements := none,
          skills_required := [lc "python", lc "SQL", lc "docker"],
          experience_required := none, education_required := none,
          location := none, job_type := none, remote_option := none,
          salary_min := none, salary_max := none }).overlap.toFinset =
        lowerSet [lc "Python", lc "sql"] ∩
          lowerSet ([lc "python", lc "SQL", lc "docker"]) ∧
      (calculate_skill_score
        { raw_text := none, skills := [lc "Python", lc "sql"],
          experience_years := none, education := [] }
        { id := 1, title := lc "t", company := lc "c", description := lc "d",
          requirements := none,
          skills_required := [lc "python", lc "SQL", lc "docker"],
          experience_required := none, education_required := none,
          location := none, job_type := none, remote_option := none,
          salary_min := none, salary_max := none }).score =
        ((lowerSet [lc "Python", lc "sql"] ∩
            lowerSet ([lc "python", lc "SQL", lc "docker"])).card : ℚ) /
          ((lowerSet ([lc "python", lc "SQL", lc "docker"])).card : ℚ) * 100) :=
  ⟨by decide,
   (C2_skill_partition_and_score
      { raw_text := none, skills := [lc "Python", lc "sql"],
        experience_years := none, education := [] }
      { id := 1, title := lc "t", company := lc "c", description := lc "d",
        requirements := none,
        skills_required := [lc "python", lc "SQL", lc "docker"],
        experience_required := none, education_required := none,
        location := none, job_type := none, remote_option := none,
        salary_min := none, salary_max := none }).1 (by decide)⟩

/-! Claim C8: the education ordinal rule. -/

theorem firstLevel_eq_find (txt : List Char) : ∀ ls : List (List Char × ℕ),
    firstLevel ls txt = ((ls.find? fun kl => containsList kl.1 txt).map Prod.snd).getD 0
  | [] => rfl
  | kl :: rest => by
      by_cases h : containsList kl.1 txt = true
      · simp [firstLevel, h, List.find?_cons_of_pos]
      · have hb : (containsList kl.1 txt) = false := by
          revert h
          cases containsList kl.1 txt <;> simp
        simp [firstLevel, hb, List.find?_cons_of_neg, firstLevel_eq_find txt rest]

theorem foldl_if_max (P : (List Char × ℕ) → Bool) :
    ∀ (ls : List (List Char × ℕ)) (acc : ℕ),
      ls.foldl (fun a kl => if P kl then max a kl.2 else a) acc =
        max acc (((ls.filter P).map Prod.snd).foldr max 0)
  | [], acc => by simp
  | kl :: rest, acc => by
      by_cases h : P kl
      · simp only [List.foldl_cons, h, if_pos, List.filter_cons_of_pos h,
          List.map_cons, List.foldr_cons]
        rw [foldl_if_max P rest (max acc kl.2), Nat.max_assoc]
      · simp only [List.foldl_cons, if_neg h, List.filter_cons_of_neg h]
        exact foldl_if_max P rest acc

/-- Per-entry maximum education level of one degree string, phrased as the
claim phrases it. -/
def specDegreeLevel (e : EduEntry) : ℕ :=
  (((edu_levels.filter fun kl => containsList kl.1 (lowStr e.degree)).map
    Prod.snd).foldr max 0)

theorem candidateLevel_foldl (edu : List EduEntry) : ∀ acc : ℕ,
    edu.foldl
      (fun acc e =>
        edu_levels.foldl
          (fun acc2 kl =>
            if containsList kl.1 (lowStr e.degree) then max acc2 kl.2 else acc2)
          acc)
      acc = max acc ((edu.map specDegreeLevel).foldr max 0) := by
  induction edu with
  | nil => intro acc; simp
  | cons e rest ih =>
      intro acc
      simp only [List.foldl_cons, List.map_cons, List.foldr_cons]
      rw [foldl_if_max _ edu_levels acc, ih, Nat.max_assoc]
      rfl

theorem candidateLevel_eq (edu : List EduEntry) :
    candidateLevel edu = (edu.map specDegreeLevel).foldr max 0 := by
  unfold candidateLevel
  rw [candidateLevel_foldl edu 0]
  exact Nat.zero_max _

/-- The education scoring rule exactly as the specification words it:
ordinal levels, required level from the first keyword in declaration
order found as a substring (0, scored 100, when none), candidate level
the maximum over the degree strings, full marks when candidate reaches
required, otherwise the level ratio.  Spec-side definition used only for
the refinement comparison with the implementation. -/
def specEducationScore (resume : Resume) (job : Job) : ℚ :=
  let req := lowStr (job.education_required.getD [])
  let required := ((edu_levels.find? fun kl => containsList kl.1 req).map
    Prod.snd).getD 0
  let cand := (resume.education.map specDegreeLevel).foldr max 0
  if required = 0 then 100
  else if required ≤ cand then 100
  else (cand : ℚ) / (required : ℚ) * 100

/-- C8: the education score follows the ordinal rule of the specification:
the required level is that of the first keyword in declaration order found
as a substring of the requirement text, scoring 100 when no keyword is
found and in particular whenever the requirement text is empty, regardless
of the resume; the candidate level is the maximum over the degree strings;
the score is 100 when candidate reaches required and the ratio times 100
otherwise. -/
theorem C8_education_score_ordinal (resume : Resume) (job : Job) :
    calculate_education_score resume job = specEducationScore resume job ∧
    (job.education_required.getD [] = [] →
      calculate_education_score resume job = 100) ∧
    (firstLevel edu_levels (lowStr (job.education_required.getD [])) = 0 →
      calculate_education_score resume job = 100) := by
  refine ⟨?_, ?_, ?_⟩
  · by_cases hreq : lowStr (job.education_required.getD []) = []
    · have hfind : ((edu_levels.find? fun kl =>
          containsList kl.1 ([] : List Char)).map Prod.snd).getD 0 = 0 := by decide
      have hcode : calculate_education_score resume job = 100 := by
        simp [calculate_education_score, hreq]
      have hspec : specEducationScore resume job = 100 := by
        simp only [specEducationScore, hreq]
        rw [hfind]
        simp
      rw [hcode, hspec]
    · simp only [calculate_education_score, specEducationScore]
      rw [if_neg hreq]
      rw [firstLevel_eq_find (lowStr (job.education_required.getD [])) edu_levels,
        candidateLevel_eq]
  · intro h0
    simp [calculate_education_score, h0, lowStr]
  · intro h0
    by_cases hreq : lowStr (job.education_required.getD []) = []
    · simp [calculate_education_score, hreq]
    · simp only [calculate_education_score]
      rw [if_neg hreq, if_pos h0]

theorem C8_education_witness :
    (({ id := 4, title := lc "t", company := lc "c", description := lc "d",
        requirements := none, skills_required := [],
        experience_required := none, education_required := none,
        location := none, job_type := none, remote_option := none,
        salary_min := none, salary_max := none } : Job).education_required.getD []
      = ([] : List Char)) ∧
    calculate_education_score
      { raw_text := none, skills := [], experience_years := none,
        education := [{ degree := lc "PhD in CS", context := [],
                        graduation_year := none }] }
      { id := 4, title := lc "t", company := lc "c", description := lc "d",
        requirements := none, skills_required := [],
        experience_required := none, education_required := none,
        location := none, job_type := none, remote_option := none,
        salary_min := none, salary_max := none } = 100 :=
  ⟨rfl,
   (C8_education_score_ordinal
      { raw_text := none, skills := [], experience_years := none,
        education := [{ degree := lc "PhD in CS", context := [],
                        graduation_year := none }] }
      { id := 4, title := lc "t", company := lc "c", description := lc "d",
        requirements := none, skills_required := [],
        experience_required := none, education_required := none,
        location := none, job_type := none, remote_option := none,
        salary_min := none, salary_max := none }).2.1 rfl⟩

/-! Claim C7: the semantic score cases. -/

theorem jobText_ne_nil (job : Job) : jobText job ≠ [] := by
  intro h
  have hm : ' ' ∈ jobText job := by simp [jobText]
  rw [h] at hm
  exact List.not_mem_nil _ hm

/-- C7: the semantic score is the rescaled similarity of the two
embeddings times 100; it is the neutral 50.0 whenever the resume text is
empty, whenever the job text is empty (the job text as constructed always
holds its separator spaces, so that guard is vacuous), and whenever an
embedding call fails. -/
theorem C7_semantic_score_neutral_and_similarity
    (embedE : List Char → Except (List Char) (List ℚ))
    (cosRaw : List ℚ → List ℚ → ℚ) (resume : Resume) (job : Job) :
    (resume.raw_text.getD [] = [] →
      calculate_semantic_score embedE cosRaw resume job = 50) ∧
    (jobText job = [] →
      calculate_semantic_score embedE cosRaw resume job = 50) ∧
    jobText job ≠ [] ∧
    (∀ msg, embedE (resume.raw_text.getD []) = Except.error msg →
      calculate_semantic_score embedE cosRaw resume job = 50) ∧
    (∀ msg, embedE (jobText job) = Except.error msg →
      calculate_semantic_score embedE cosRaw resume job = 50) ∧
    (∀ a b, resume.raw_text.getD [] ≠ [] →
      embedE (resume.raw_text.getD []) = Except.ok a →
      embedE (jobText job) = Except.ok b →
      calculate_semantic_score embedE cosRaw resume job =
        compute_similarity cosRaw a b * 100) := by
  refine ⟨?_, ?_, jobText_ne_nil job, ?_, ?_, ?_⟩
  · intro h
    simp [calculate_semantic_score, h]
  · intro h
    simp [calculate_semantic_score, h]
  · intro msg hmsg
    by_cases hc : resume.raw_text.getD [] = [] ∨ jobText job = []
    · simp [calculate_semantic_score, hc]
    · simp [calculate_semantic_score, hc, hmsg, Bind.bind, Except.bind]
  · intro msg hmsg
    by_cases hc : resume.raw_text.getD [] = [] ∨ jobText job = []
    · simp [calculate_semantic_score, hc]
    · cases h1 : embedE (resume.raw_text.getD []) with
      | error e => simp [calculate_semantic_score, hc, h1, Bind.bind, Except.bind]
      | ok a => simp [calculate_semantic_score, hc, h1, hmsg, Bind.bind, Except.bind]
  · intro a b hne h1 h2
    have hc : ¬(resume.raw_text.getD [] = [] ∨ jobText job = []) := by
      push_neg
      exact ⟨hne, jobText_ne_nil job⟩
    simp [calculate_semantic_score, hc, h1, h2, Bind.bind, Except.bind, pure,
      Except.pure]

theorem C7_semantic_witness :
    (({ raw_text := none, skills := [], experience_years := none,
        education := [] } : Resume).raw_text.getD []) = ([] : List Char) ∧
    calculate_semantic_score (fun _ => Except.ok [(1:ℚ)]) (fun _ _ => 1)
      { raw_text := none, skills := [], experience_years := none,
        education := [] }
      { id := 7, title := lc "t", company := lc "c", description := lc "d",
        requirements := none, skills_required := [],
        experience_required := none, education_required := none,
        location := none, job_type := none, remote_option := none,
        salary_min := none, salary_max := none } = 50 :=
  ⟨rfl,
   (C7_semantic_score_neutral_and_similarity (fun _ => Except.ok [(1:ℚ)])
      (fun _ _ => 1)
      { raw_text := none, skills := [], experience_years := none,
        education := [] }
      { id := 7, title := lc "t", company := lc "c", description := lc "d",
        requirements := none, skills_required := [],
        experience_required := none, education_required := none,
        location := none, job_type := none, remote_option := none,
        salary_min := none, salary_max := none }).1 rfl⟩

/-! Claim C5: the deterministic fallback embedding. -/

/-- C5: with no model backend, the embedding of a text is a pure function
of the text: two calls agree bit for bit, and the vector is the draw of
the abstract generator at dimension 384 seeded with the integer value of
the first 8 hex characters of the SHA-256 hexdigest of the text modulo
2^31; the seed is always below 2^31 and the default dimension is 384. -/
theorem C5_fallback_embedding_deterministic (randn : ℕ → ℕ → List ℚ)
    (t : List ℕ) :
    fallback_embedding randn embedding_dim t =
        fallback_embedding randn embedding_dim t ∧
    fallback_embedding randn embedding_dim t =
      randn (hexToNat ((hexdigest (sha256 t)).take 8) % 2 ^ 31) 384 ∧
    fallbackSeed t < 2 ^ 31 ∧
    embedding_dim = 384 :=
  ⟨rfl, rfl, Nat.mod_lt _ (by norm_num), rfl⟩

/-! Claim C6: experience-year computation.  The implementation resolves
every parseable date, month-and-year dates included, to June 1 of its
year; the claim-side definitions below follow the claim's words, under
which a month-and-year date keeps its stated month, and exist only for
the refinement comparison. -/

/-- Month-name table of the claim's reading. -/
def monthTable : List (List Char × ℕ) :=
  [(lc "jan", 1), (lc "feb", 2), (lc "mar", 3), (lc "apr", 4), (lc "may", 5),
   (lc "jun", 6), (lc "jul", 7), (lc "aug", 8), (lc "sep", 9), (lc "oct", 10),
   (lc "nov", 11), (lc "dec", 12)]

/-- Stated month of a date string under the claim's reading. -/
def claimMonthOf (s : List Char) : Option ℕ :=
  (monthTable.find? fun p => containsList p.1 (lowStr s)).map Prod.snd

/-- Date parsing as the claim words it: a month-and-year date resolves to
its stated month, a year-only string to June. -/
def claim_parse_date (s : List Char) : Option (ℕ × ℕ) :=
  match findYear s with
  | some y => if 1 ≤ y then some (y, (claimMonthOf s).getD 6) else none
  | none => none

/-- Per-entry months under the claim's reading. -/
def claim_entry_months (now : ℕ × ℕ) (e : WorkEntry) : ℕ :=
  match claim_parse_date e.start_date with
  | none => 0
  | some s =>
      let endOpt :=
        if lowStr e.end_date = lc "present" ∨ lowStr e.end_date = lc "current" then
          some now
        else claim_parse_date e.end_date
      match endOpt with
      | none => 0
      | some en => (((en.1 : ℤ) - (s.1 : ℤ)) * 12 + ((en.2 : ℤ) - (s.2 : ℤ))).toNat

/-- Experience years under the claim's reading. -/
def claim_experience_years (now : ℕ × ℕ) (wh : List WorkEntry) : ℕ :=
  ((wh.map (claim_entry_months now)).sum) / 12

/-- The claim fails on the code: the entry July 2020 to May 2021 spans 10
stated months, zero whole years, but the implementation anchors both
dates at June 1 and reports 12 months, one whole year. -/
theorem C6_counterexample_months_ignored :
    calculate_experience_years (2025, 10) [⟨lc "Jul 2020", lc "May 2021", []⟩] = 1 ∧
    claim_experience_years (2025, 10) [⟨lc "Jul 2020", lc "May 2021", []⟩] = 0 ∧
    parse_date (lc "Jul 2020") = some (2020, 6) ∧
    claim_parse_date (lc "Jul 2020") = some (2020, 7) := by
  decide

theorem foldl_add_eq_sum (f : WorkEntry → ℕ) (wh : List WorkEntry) : ∀ acc : ℕ,
    wh.foldl (fun acc e => acc + f e) acc = acc + (wh.map f).sum := by
  induction wh with
  | nil => intro acc; simp
  | cons e rest ih =>
      intro acc
      simp only [List.foldl_cons, List.map_cons, List.sum_cons]
      rw [ih (acc + f e), Nat.add_assoc]

/-- C6 amended: experience_years sums the per-entry month differences
clamped at zero and floor-divides by 12, where every parseable date —
year-only or month-and-year alike — resolves to June 1 of the first
four-digit year it contains (the stated month is ignored),
Present/Current end dates resolve to the current date, and unparseable
entries contribute nothing without aborting the computation. -/
theorem C6_experience_years_amended (now : ℕ × ℕ) (wh : List WorkEntry) :
    calculate_experience_years now wh = ((wh.map (entryMonths now)).sum) / 12 ∧
    parse_date (lc "2019") = some (2019, 6) ∧
    parse_date (lc "Jul 2020") = some (2020, 6) ∧
    parse_date (lc "unknown") = none ∧
    (∀ e : WorkEntry, lowStr e.end_date = lc "present" →
      entryMonths now e =
        match parse_date e.start_date with
        | some s => (((now.1 : ℤ) - (s.1 : ℤ)) * 12 + ((now.2 : ℤ) - (s.2 : ℤ))).toNat
        | none => 0) := by
  refine ⟨?_, by decide, by decide, by decide, ?_⟩
  · unfold calculate_experience_years
    by_cases h : wh.isEmpty
    · have : wh = [] := by
        cases wh with
        | nil => rfl
        | cons a b => simp at h
      simp [this]
    · rw [if_neg h, foldl_add_eq_sum (entryMonths now) wh 0, Nat.zero_add]
  · intro e h
    cases hp : parse_date e.start_date <;>
      simp [entryMonths, hp, h]

theorem C6_experience_witness :
    lowStr (lc "Present") = lc "present" ∧
    entryMonths (2025, 10) ⟨lc "2020", lc "Present", []⟩ = 64 :=
  ⟨by decide,
   ((C6_experience_years_amended (2025, 10) []).2.2.2.2
      ⟨lc "2020", lc "Present", []⟩ (by decide)).trans (by decide)⟩

/-! Claim C4: error behaviour of document extraction. -/

/-- The claim fails on the code for the PDF path: with both extraction
strategies raising, parse returns an empty-text success instead of an
extraction error. -/
theorem C4_counterexample_pdf_no_error :
    parse_raw_text (lc ".pdf") none none none = ParseOutcome.ok [] := by
  decide

/-- C4 amended: extraction fails with the unsupported-format error for
every unknown extension, and a DOCX extraction whose strategy raises
fails with the extraction error; a PDF extraction, however, never fails:
when every strategy raises it returns the (empty) accumulated text as a
success instead of raising. -/
theorem C4_extract_errors_amended (ext : List Char) (p1 p2 d : Option (List Char)) :
    (lowStr ext ≠ lc ".pdf" → lowStr ext ≠ lc ".docx" → lowStr ext ≠ lc ".doc" →
      parse_raw_text ext p1 p2 d = ParseOutcome.unsupported) ∧
    ((lowStr ext = lc ".docx" ∨ lowStr ext = lc ".doc") → d = none →
      parse_raw_text ext p1 p2 d = ParseOutcome.extractionError) ∧
    (lowStr ext = lc ".pdf" →
      parse_raw_text ext p1 p2 d = ParseOutcome.ok (extract_pdf_text p1 p2)) := by
  refine ⟨?_, ?_, ?_⟩
  · intro h1 h2 h3
    unfold parse_raw_text
    rw [if_neg h1, if_neg (by push_neg; exact ⟨h2, h3⟩)]
  · intro hor hd
    have hne : lowStr ext ≠ lc ".pdf" := by
      rcases hor with h | h <;> rw [h] <;> decide
    unfold parse_raw_text
    rw [if_neg hne, if_pos hor, hd]
    rfl
  · intro h
    unfold parse_raw_text
    rw [if_pos h]

theorem C4_extract_errors_witness :
    parse_raw_text (lc ".txt") none none none = ParseOutcome.unsupported ∧
    parse_raw_text (lc ".docx") none none none = ParseOutcome.extractionError ∧
    parse_raw_text (lc ".PDF") (some (lc "hello")) none none =
      ParseOutcome.ok (extract_pdf_text (some (lc "hello")) none) :=
  ⟨(C4_extract_errors_amended (lc ".txt") none none none).1
      (by decide) (by decide) (by decide),
   (C4_extract_errors_amended (lc ".docx") none none none).2.1
      (Or.inl (by decide)) rfl,
   (C4_extract_errors_amended (lc ".PDF") (some (lc "hello")) none none).2.2
      (by decide)⟩

/-! Claims C3 and C9: the ranking pipeline. -/

theorem sortJobs_stable (l : List ScoredEntry) (q : ℚ) :
    (sortJobs l).filter (fun e => decide (e.score = q)) =
      l.filter (fun e => decide (e.score = q)) := by
  have h1 : (l.filter (fun e => decide (e.score = q))).Pairwise byScoreDesc := by
    apply List.pairwise_of_forall_mem_list
    intro a ha b hb
    have ha2 : a.score = q := of_decide_eq_true (List.mem_filter.mp ha).2
    have hb2 : b.score = q := of_decide_eq_true (List.mem_filter.mp hb).2
    unfold byScoreDesc
    rw [ha2, hb2]
  have h3 : List.Sublist (l.filter (fun e => decide (e.score = q))) (sortJobs l) :=
    List.sublist_insertionSort h1 (List.filter_sublist l)
  have h4 : List.Sublist (l.filter (fun e => decide (e.score = q)))
      ((sortJobs l).filter (fun e => decide (e.score = q))) := by
    have h5 := h3.filter (fun e => decide (e.score = q))
    rwa [List.filter_eq_self.mpr (fun a ha => (List.mem_filter.mp ha).2)] at h5
  have h6 : ((sortJobs l).filter (fun e => decide (e.score = q))).length =
      (l.filter (fun e => decide (e.score = q))).length :=
    ((List.perm_insertionSort byScoreDesc l).filter _).length_eq
  exact (h4.eq_of_length h6.symm).symm

theorem apply_filters_nil (filters : Option Filters) :
    apply_filters [] filters = [] := by
  cases filters with
  | none => rfl
  | some f => simp [apply_filters]

theorem generate_eq (scorer : Job → Except (List Char) MatchResult)
    (jobs : List Job) (filters : Option Filters) (limit : ℕ) :
    generate scorer jobs filters limit =
      assignRanks 1
        ((sortJobs (scoredList scorer (apply_filters jobs filters))).take limit) := by
  simp only [generate]
  split_ifs with h1 h2
  · have hj : jobs = [] := by
      cases jobs with
      | nil => rfl
      | cons a b => simp at h1
    subst hj
    rw [apply_filters_nil]
    simp [scoredList, sortJobs, List.insertionSort, assignRanks]
  · have hf : apply_filters jobs filters = [] := by
      revert h2
      cases happ : apply_filters jobs filters <;> simp
    rw [hf]
    simp [scoredList, sortJobs, List.insertionSort, assignRanks]
  · rfl

theorem assignRanks_length : ∀ (n : ℕ) (l : List ScoredEntry),
    (assignRanks n l).length = l.length
  | _, [] => rfl
  | n, e :: es => by
      simp [assignRanks, assignRanks_length (n + 1) es]

theorem assignRanks_map_rank : ∀ (n : ℕ) (l : List ScoredEntry),
    (assignRanks n l).map (fun r => r.rank) = List.range' n l.length
  | _, [] => rfl
  | n, e :: es => by
      simp [assignRanks, mkRecommendedJob, assignRanks_map_rank (n + 1) es,
        List.range']

theorem assignRanks_map_score : ∀ (n : ℕ) (l : List ScoredEntry),
    (assignRanks n l).map (fun r => r.score) = l.map (fun e => round2 e.score)
  | _, [] => rfl
  | n, e :: es => by
      simp [assignRanks, mkRecommendedJob, assignRanks_map_score (n + 1) es]

/-- C3: the ranking returns exactly the top min(limit, scored) entries —
in particular at most limit of them — with dense 1-based ranks 1, 2, …,
scores in non-increasing order, and a stable order: for every score
value, the entries carrying it appear in the sorted list exactly as they
appeared in the scored input. -/
theorem C3_ranking_sorted_stable_truncated
    (scorer : Job → Except (List Char) MatchResult) (jobs : List Job)
    (filters : Option Filters) (limit : ℕ) :
    (generate scorer jobs filters limit).length =
      min limit (scoredList scorer (apply_filters jobs filters)).length ∧
    (generate scorer jobs filters limit).length ≤ limit ∧
    (generate scorer jobs filters limit).map (fun r => r.rank) =
      List.range' 1 (generate scorer jobs filters limit).length ∧
    ((generate scorer jobs filters limit).map (fun r => r.score)).Sorted
      (fun a b : ℚ => b ≤ a) ∧
    (∀ q : ℚ,
      (sortJobs (scoredList scorer (apply_filters jobs filters))).filter
          (fun e => decide (e.score = q)) =
        (scoredList scorer (apply_filters jobs filters)).filter
          (fun e => decide (e.score = q))) := by
  have hlen : (generate scorer jobs filters limit).length =
      min limit (scoredList scorer (apply_filters jobs filters)).length := by
    rw [generate_eq, assignRanks_length, List.length_take, sortJobs,
      List.length_insertionSort]
  refine ⟨hlen, ?_, ?_, ?_, fun q => sortJobs_stable _ q⟩
  · rw [hlen]
    exact Nat.min_le_left _ _
  · rw [generate_eq, assignRanks_map_rank, assignRanks_length]
  · rw [generate_eq, assignRanks_map_score]
    have hs : (sortJobs (scoredList scorer (apply_filters jobs filters))).Sorted
        byScoreDesc := List.sorted_insertionSort byScoreDesc _
    have ht : ((sortJobs (scoredList scorer (apply_filters jobs filters))).take
        limit).Pairwise byScoreDesc :=
      hs.sublist (List.take_sublist limit _)
    rw [List.Sorted, List.pairwise_map]
    exact ht.imp fun hab => round2_mono hab

/-- Does the scorer succeed on a job. -/
def scoringOk (scorer : Job → Except (List Char) MatchResult) (j : Job) : Bool :=
  match scorer j with
  | .ok _ => true
  | .error _ => false

theorem scoredList_filter_ok (scorer : Job → Except (List Char) MatchResult) :
    ∀ jobs : List Job,
      scoredList scorer (jobs.filter (scoringOk scorer)) = scoredList scorer jobs
  | [] => rfl
  | j :: rest => by
      have ih := scoredList_filter_ok scorer rest
      cases hs : scorer j with
      | ok m =>
          have hok : scoringOk scorer j = true := by simp [scoringOk, hs]
          have h2 : (j :: rest).filter (scoringOk scorer) =
              j :: rest.filter (scoringOk scorer) := by
            simp [List.filter_cons, hok]
          have h1 : scoredList scorer (j :: rest) =
              ⟨j, m.overall_score, m.skill_overlap, m.skill_gaps, m.explanation⟩ ::
                scoredList scorer rest := by
            simp [scoredList, hs]
          have h3 : scoredList scorer (j :: rest.filter (scoringOk scorer)) =
              ⟨j, m.overall_score, m.skill_overlap, m.skill_gaps, m.explanation⟩ ::
                scoredList scorer (rest.filter (scoringOk scorer)) := by
            simp [scoredList, hs]
          rw [h2, h3, ih, h1]
      | error e =>
          have hok : scoringOk scorer j = false := by simp [scoringOk, hs]
          have h2 : (j :: rest).filter (scoringOk scorer) =
              rest.filter (scoringOk scorer) := by
            simp [List.filter_cons, hok]
          have h1 : scoredList scorer (j :: rest) = scoredList scorer rest := by
            simp [scoredList, hs]
          rw [h2, ih, h1]

theorem filter_stage_comm (c : Bool) (g p : Job → Bool) (l : List Job) :
    (if c then (l.filter p).filter g else l.filter p) =
      (if c then l.filter g else l).filter p := by
  cases c
  · simp
  · simp only [if_true]
    rw [List.filter_filter, List.filter_filter]
    exact List.filter_congr fun a _ => by rw [Bool.and_comm]

theorem apply_filters_filter (p : Job → Bool) (jobs : List Job)
    (filters : Option Filters) :
    apply_filters (jobs.filter p) filters = (apply_filters jobs filters).filter p := by
  cases filters with
  | none => rfl
  | some f =>
      simp only [apply_filters]
      rw [filter_stage_comm, filter_stage_comm, filter_stage_comm,
        filter_stage_comm, filter_stage_comm]

/-- C9: a job whose scoring fails is skipped and the batch continues: the
recommendation output over any job list equals the output over only the
jobs whose scoring succeeds. -/
theorem C9_failed_scoring_isolated (scorer : Job → Except (List Char) MatchResult)
    (jobs : List Job) (filters : Option Filters) (limit : ℕ) :
    generate scorer jobs filters limit =
      generate scorer (jobs.filter (scoringOk scorer)) filters limit := by
  rw [generate_eq, generate_eq, apply_filters_filter, scoredList_filter_ok]

/-! Claim C10: skills ending in non-word characters and the keyword pass. -/

theorem getD_drop (t : List Char) : ∀ (i k : ℕ) (d : Char),
    (t.drop i).getD k d = t.getD (i + k) d := by
  induction t with
  | nil => intro i k d; simp
  | cons c rest ih =>
      intro i k d
      cases i with
      | zero => simp
      | succ j =>
          have harith : j + 1 + k = (j + k) + 1 := by omega
          rw [List.drop_succ_cons, ih j k d, harith, List.getD_cons_succ]

theorem startsList_getD (s : List Char) : ∀ (u : List Char),
    startsList s u = true → ∀ k, k < s.length → u.getD k ' ' = s.getD k ' ' := by
  induction s with
  | nil => intro u _ k hk; simp at hk
  | cons a s2 ih =>
      intro u h k hk
      cases u with
      | nil => simp [startsList] at h
      | cons b u2 =>
          simp only [startsList, Bool.and_eq_true, beq_iff_eq] at h
          obtain ⟨hab, hrest⟩ := h
          cases k with
          | zero => simp [hab]
          | succ k2 =>
              simp only [List.getD_cons_succ]
              exact ih u2 hrest k2 (by simpa using hk)

/-- A keyword whose final character is a non-word character can never
match at a position whose following character is non-word or absent: the
trailing word boundary would need a word character on exactly one side,
and both sides are non-word. -/
theorem kwMatch_blocked_at (s t : List Char) (i : ℕ) (hs : s ≠ [])
    (hlast : isWordChar (s.getD (s.length - 1) ' ') = false)
    (hnext : isWordIdx t (i + s.length) = false) :
    ¬(startsList s (t.drop i) = true ∧ boundaryAt t i = true ∧
      boundaryAt t (i + s.length) = true) := by
  rintro ⟨hst, hb1, hb2⟩
  have hlen : 1 ≤ s.length := List.length_pos.mpr hs
  have hchar : t.getD (i + s.length - 1) ' ' = s.getD (s.length - 1) ' ' := by
    have h1 := startsList_getD s (t.drop i) hst (s.length - 1) (by omega)
    rw [getD_drop] at h1
    have harith : i + (s.length - 1) = i + s.length - 1 := by omega
    rwa [harith] at h1
  unfold boundaryAt at hb2
  rw [if_neg (by omega : ¬(i + s.length = 0))] at hb2
  rw [hnext] at hb2
  have hword : isWordIdx t (i + s.length - 1) = true := by
    revert hb2
    cases isWordIdx t (i + s.length - 1) <;> simp
  unfold isWordIdx at hword
  rw [hchar, hlast] at hword
  exact Bool.false_ne_true hword

/-- C10: taxonomy skills that end in a non-word character, such as c++ and
c#, are unreachable by the keyword pass whenever the occurrence is
followed by whitespace, punctuation or end of text, because the
word-boundary pattern cannot hold after the final + or #; concretely,
extraction over a text that mentions both returns neither, even though
both are taxonomy keys. -/
theorem C10_nonword_tail_skills_unreachable :
    ((lc "c++") ∈ SKILLS_DATABASE.map Prod.fst ∧
     (lc "c#") ∈ SKILLS_DATABASE.map Prod.fst) ∧
    (∀ (s t : List Char) (i : ℕ), s ≠ [] →
      isWordChar (s.getD (s.length - 1) ' ') = false →
      isWordIdx t (i + s.length) = false →
      ¬(startsList s (t.drop i) = true ∧ boundaryAt t i = true ∧
        boundaryAt t (i + s.length) = true)) ∧
    ((lc "c++") ∉ extract_skills none (lc "Proficient in c++ and c#") ∧
     (lc "c#") ∉ extract_skills none (lc "Proficient in c++ and c#")) :=
  ⟨by decide, kwMatch_blocked_at, by decide⟩

theorem C10_nonword_tail_witness :
    (lc "c#") ≠ [] ∧
    isWordChar ((lc "c#").getD ((lc "c#").length - 1) ' ') = false ∧
    isWordIdx (lowStr (lc "Proficient in c++ and c#")) (22 + (lc "c#").length)
      = false ∧
    ¬(startsList (lc "c#") ((lowStr (lc "Proficient in c++ and c#")).drop 22)
        = true ∧
      boundaryAt (lowStr (lc "Proficient in c++ and c#")) 22 = true ∧
      boundaryAt (lowStr (lc "Proficient in c++ and c#"))
        (22 + (lc "c#").length) = true) :=
  ⟨by decide, by decide, by decide,
   C10_nonword_tail_skills_unreachable.2.1 (lc "c#")
     (lowStr (lc "Proficient in c++ and c#")) 22
     (by decide) (by decide) (by decide)⟩

end TalentLens
